import Mathlib

/-!
Shallow embedding of `src/build-from-airtable.mjs` (a one-shot static-site
generator) and verification of its specification.

Strings are modelled as `List Char` (`Str`); JavaScript string operations
become list operations.  `String.prototype.replace(/c/g, r)` with a
single-character pattern is `replaceAll`.  Absent object fields
(`undefined` in JS) are `Option.none`; the JS distinction between
`undefined` and `null` is captured by `JSVal` where it matters
(`escapeHtml`'s default parameter fires only for `undefined`).
The two network calls are modelled by passing each call's `Response`
value in explicitly; the file write is the `.ok` payload of `mainModel`.
-/

/-! ## Strings and the escaper -/

abbrev Str := List Char

def lit (s : String) : Str := s.data

/-- `s.replace(/c/g, r)` for a one-character pattern `c`:
every occurrence of `c` is replaced by `r`, left to right. -/
def replaceAll (c : Char) (r : Str) : Str → Str
  | [] => []
  | x :: xs => (if x = c then r else [x]) ++ replaceAll c r xs

/-- `escapeHtml` from the source (lines 41-47), applied to an
already-converted string: the four `.replace` calls in source order
(`&` first, then `<`, `>`, `"`). -/
def escapeHtml (s : Str) : Str :=
  replaceAll '"' (lit "&quot;")
    (replaceAll '>' (lit "&gt;")
      (replaceAll '<' (lit "&lt;")
        (replaceAll '&' (lit "&amp;") s)))

/-- JS values that can reach `escapeHtml`'s parameter. -/
inductive JSVal where
  | undef
  | null
  | str (s : Str)
deriving DecidableEq

/-- `escapeHtml(value = "")` as called on a JS value: the default
parameter replaces `undefined` (and only `undefined`) by `""`, then
`String(value)` converts (`String(null)` is the four-character string
`"null"`), then the four replacements run. -/
def escapeHtmlJS : JSVal → Str
  | .undef => escapeHtml (lit "")
  | .null => escapeHtml (lit "null")
  | .str s => escapeHtml s

/-- `undefined` for an absent field, the field's string otherwise. -/
def optToJS : Option Str → JSVal
  | none => .undef
  | some s => .str s

/-- Single-pass character table, the spec's reading of the escaper:
each HTML-significant character maps to its entity, every other
character is kept. -/
def escChar (c : Char) : Str :=
  if c = '&' then lit "&amp;"
  else if c = '<' then lit "&lt;"
  else if c = '>' then lit "&gt;"
  else if c = '"' then lit "&quot;"
  else [c]

/-- The single-pass escaper the spec describes. -/
def escapeSpec : Str → Str
  | [] => []
  | c :: cs => escChar c ++ escapeSpec cs

/-- A character is HTML-significant when the escaper rewrites it. -/
def isSpecial (c : Char) : Bool :=
  c = '&' || c = '<' || c = '>' || c = '"'

/-! ## Section records and the card renderer -/

/-- The fields of one Airtable `Sections` record (`rec.fields`).
Absent Airtable fields are `none` (JS `undefined`). -/
structure SectionFields where
  Order : Option Int := none
  Title : Option Str := none
  Body : Option Str := none
  Highlight : Option Bool := none
  Bullet1 : Option Str := none
  Bullet2 : Option Str := none
  Bullet3 : Option Str := none
deriving DecidableEq

/-- One Airtable record as used by `renderCards`. -/
structure SectionRecord where
  fields : SectionFields
deriving DecidableEq

/-- JS truthiness of an optional boolean field (`f.Highlight ? _ : _`):
`undefined` and `false` are falsy. -/
def truthyB : Option Bool → Bool
  | some b => b
  | none => false

/-- JS truthiness of an optional string field (`filter(Boolean)`):
`undefined` and `""` are falsy. -/
def truthyStr : Option Str → Bool
  | some s => !s.isEmpty
  | none => false

/-- `a.fields.Order || 0`: an absent `Order` sorts as `0`
(and `0 || 0` is `0`, so `some 0` agrees). -/
def orderKey (r : SectionRecord) : Int :=
  match r.fields.Order with
  | some n => n
  | none => 0

/-- The non-strict order induced by the comparator
`(a, b) => (a.fields.Order || 0) - (b.fields.Order || 0)`. -/
def sectionLe (a b : SectionRecord) : Prop := orderKey a ≤ orderKey b

instance : DecidableRel sectionLe := fun a b => Int.decLe (orderKey a) (orderKey b)

instance : IsTrans SectionRecord sectionLe :=
  ⟨fun _ _ _ hab hbc => le_trans hab hbc⟩

instance : IsTotal SectionRecord sectionLe :=
  ⟨fun a b => le_total (orderKey a) (orderKey b)⟩

/-- `sections.sort((a, b) => (a.fields.Order || 0) - (b.fields.Order || 0))`.
JS `Array.prototype.sort` with a consistent numeric comparator is
specified to be stable and to order ascending; a stable ascending sort
is the unique permutation that is both sorted and order-preserving on
equal keys, so the stable `List.insertionSort` is its embedding (the
theorems `sortSections_perm`, `sortSections_sorted` and
`sortSections_stable` establish exactly those three properties). -/
def sortSections (l : List SectionRecord) : List SectionRecord :=
  l.insertionSort sectionLe

/-- The `card${highlightClass}` value inside the class attribute:
the literal `card` followed by `highlightClass`, which is
`" card highlight"` when `f.Highlight` is truthy and `""` otherwise
(source lines 56 and 66). -/
def classAttr (f : SectionFields) : Str :=
  lit "card" ++ (if truthyB f.Highlight then lit " card highlight" else [])

/-- The `class="card${highlightClass}"` fragment of the section tag. -/
def sectionClassFrag (f : SectionFields) : Str :=
  lit "class=\"" ++ classAttr f ++ lit "\""

/-- `[f["Bullet 1"], f["Bullet 2"], f["Bullet 3"]].filter(Boolean)
.map((b) => `<li>…</li>`)` (source lines 58-61). -/
def bulletItems (f : SectionFields) : List Str :=
  (([f.Bullet1, f.Bullet2, f.Bullet3].filter truthyStr).map
    (fun b => lit "<li>" ++ escapeHtml (b.getD []) ++ lit "</li>"))

/-- `bullets` after `.join("")`. -/
def bulletsJoined (f : SectionFields) : Str := (bulletItems f).flatten

/-- `const bulletsHtml = bullets ? `<ul>${bullets}</ul>` : ""`. -/
def bulletsHtml (f : SectionFields) : Str :=
  if (bulletsJoined f).isEmpty then []
  else lit "<ul>" ++ bulletsJoined f ++ lit "</ul>"

/-- The bullet slots that survive `filter(Boolean)`, as plain strings in
slot order: the spec's "non-empty bullet fields". -/
def nonEmptyBullets (f : SectionFields) : List Str :=
  ([f.Bullet1, f.Bullet2, f.Bullet3].filterMap id).filter (fun s => !s.isEmpty)

/-- The template literal of one card (source lines 65-70); the
`class="card${highlightClass}"` part of the first line is grouped as
`sectionClassFrag`, the surrounding text is verbatim. -/
def renderCard (rec : SectionRecord) : Str :=
  let f := rec.fields
  let title := escapeHtml (f.Title.getD [])
  let body := escapeHtml (f.Body.getD [])
  lit "\n    <section " ++ sectionClassFrag f
    ++ lit ">\n      <h2>" ++ title
    ++ lit "</h2>\n      <p>" ++ body
    ++ lit "</p>\n      " ++ bulletsHtml f
    ++ lit "\n    </section>"

/-- `renderCards` (source lines 49-73).  `Array.prototype.sort` sorts
in place, so the call both returns the joined HTML and leaves the
caller's array sorted; the pair `(array after the call, return value)`
captures both. -/
def renderCards (sections : List SectionRecord) : List SectionRecord × Str :=
  let sorted := sortSections sections
  (sorted, List.intercalate (lit "\n") (sorted.map renderCard))

/-! ## Globals and the page assembler -/

/-- JS `a || b` on strings: `""` is falsy. -/
def strOr (a b : Str) : Str := if a.isEmpty then b else a

/-- `globals["X"] || d` for an optional field: `undefined || d = d`,
and an empty string is falsy too. -/
def fieldOr (o : Option Str) (d : Str) : Str :=
  match o with
  | some s => strOr s d
  | none => d

/-- The fields of the single `Globals` record: `Hero Title`,
`Hero Subtitle`, `Footer Text`, `SEO Title`, `SEO Description`. -/
structure GlobalFields where
  heroTitle : Option Str := none
  heroSubtitle : Option Str := none
  footerText : Option Str := none
  seoTitle : Option Str := none
  seoDescription : Option Str := none
deriving DecidableEq

/-- One Airtable record of the `Globals` table. -/
structure GlobalRecord where
  fields : GlobalFields
deriving DecidableEq

/-- `globalsRecords[0]?.fields ?? {}` (source line 81): the first
record's fields, or the empty mapping when the table came back empty. -/
def globalsOf (records : List GlobalRecord) : GlobalFields :=
  match records.head? with
  | some r => r.fields
  | none => {}

/-- `escapeHtml(globals["Hero Title"] || "")` (source line 83). -/
def heroTitleOf (g : GlobalFields) : Str := escapeHtml (fieldOr g.heroTitle [])

/-- `escapeHtml(globals["Hero Subtitle"] || "")` (source line 84). -/
def heroSubtitleOf (g : GlobalFields) : Str := escapeHtml (fieldOr g.heroSubtitle [])

/-- `escapeHtml(globals["Footer Text"] || "")` (source line 85). -/
def footerTextOf (g : GlobalFields) : Str := escapeHtml (fieldOr g.footerText [])

/-- `escapeHtml(globals["SEO Title"]) || heroTitle || "Simple Web"`
(source lines 86-87): the escaper is applied to the raw field (so an
absent field goes through the default parameter), then the `||` chain
falls back to the escaped hero title and then to the fixed default. -/
def seoTitleOf (g : GlobalFields) : Str :=
  strOr (strOr (escapeHtmlJS (optToJS g.seoTitle)) (heroTitleOf g)) (lit "Simple Web")

/-- `escapeHtml(globals["SEO Description"] || "")` (source line 88). -/
def seoDescriptionOf (g : GlobalFields) : Str := escapeHtml (fieldOr g.seoDescription [])

/-- The `<title>${seoTitle}</title>` element of the document. -/
def titleFrag (g : GlobalFields) : Str :=
  lit "<title>" ++ seoTitleOf g ++ lit "</title>"

/-- The document template literal (source lines 92-119), with the five
interpolations; the `<title>` element is grouped as `titleFrag`, the
surrounding text is verbatim. -/
def assembleHtml (g : GlobalFields) (cardsHtml : Str) : Str :=
  lit "<!DOCTYPE html>\n<html lang=\"en\">\n<head>\n  <meta charset=\"UTF-8\" />\n  <meta name=\"viewport\" content=\"width=device-width, initial-scale=1.0\" />\n  "
    ++ titleFrag g
    ++ lit "\n  <meta name=\"description\" content=\""
    ++ seoDescriptionOf g
    ++ lit "\">\n  <link rel=\"stylesheet\" href=\"styles.css\" />\n</head>\n<body>\n  <header class=\"site-header\">\n    <div class=\"container\">\n      <h1>"
    ++ heroTitleOf g
    ++ lit "</h1>\n      <p class=\"subtitle\">"
    ++ heroSubtitleOf g
    ++ lit "</p>\n    </div>\n  </header>\n\n  <main class=\"container\">\n    "
    ++ cardsHtml
    ++ lit "\n  </main>\n\n  <footer class=\"site-footer\">\n    <div class=\"container\">\n      <p>"
    ++ footerTextOf g
    ++ lit "</p>\n    </div>\n  </footer>\n</body>\n</html>"

/-! ## The fetch boundary and `main` -/

/-- What `main` observes of one `fetch` call: the status line and, as
the body, either the error text (`res.text()`) or the parsed
`json.records` (the list of records). -/
structure Response (α : Type) where
  ok : Bool
  status : Nat
  statusText : Str
  bodyText : Str
  records : List α

def natStr (n : Nat) : Str := (toString n).data

/-- The message of the error thrown on a non-success status
(source lines 32-34). -/
def fetchErrMsg {α : Type} (tableName : Str) (resp : Response α) : Str :=
  lit "Failed to fetch " ++ tableName ++ lit ": " ++ natStr resp.status
    ++ lit " " ++ resp.statusText ++ lit "\n" ++ resp.bodyText

/-- `fetchTable` (source lines 24-39) applied to the response of its
single `fetch` call: `json.records` on success, a thrown error (the
`Except.error` branch) otherwise.  There is no retry in the source —
the function performs exactly one `fetch` and either returns or throws. -/
def fetchTable {α : Type} (tableName : Str) (resp : Response α) : Except Str (List α) :=
  if resp.ok then .ok resp.records
  else .error (fetchErrMsg tableName resp)

/-- `main` (source lines 75-124) over the two responses.  The first
component lists the tables fetched, in call order (each `await
fetchTable(...)` contributes one entry; an entry appears even when that
fetch throws, and a thrown error skips everything after it).  The
second component is the outcome: `.ok html` means `html` is written to
`public/index.html`; `.error e` means the run aborted with `e` before
the write (the top-level `.catch` logs it and exits non-zero). -/
def mainModel (respG : Response GlobalRecord) (respS : Response SectionRecord) :
    List Str × Except Str Str :=
  match fetchTable (lit "Globals") respG with
  | .error e => ([lit "Globals"], .error e)
  | .ok globalsRecords =>
    match fetchTable (lit "Sections") respS with
    | .error e => ([lit "Globals", lit "Sections"], .error e)
    | .ok sectionsRecords =>
        ([lit "Globals", lit "Sections"],
         .ok (assembleHtml (globalsOf globalsRecords) ((renderCards sectionsRecords).2)))

/-! ## Adjacent-pair abstraction

To show a string has no `<ul>` occurrence it is enough that no `<` is
immediately followed by `u`; `pairs` lists the adjacent character
pairs, which distributes over concatenation up to one boundary pair. -/

def pairs : Str → List (Char × Char)
  | [] => []
  | [_] => []
  | a :: b :: t => (a, b) :: pairs (b :: t)

/-! ## Theorems: the escaper -/

theorem replaceAll_append (c : Char) (r : Str) (a b : Str) :
    replaceAll c r (a ++ b) = replaceAll c r a ++ replaceAll c r b := by
  induction a with
  | nil => rfl
  | cons x xs ih => simp [replaceAll, ih]

theorem escapeHtml_append (a b : Str) :
    escapeHtml (a ++ b) = escapeHtml a ++ escapeHtml b := by
  simp [escapeHtml, replaceAll_append]

theorem escapeHtml_single (c : Char) : escapeHtml [c] = escChar c := by
  by_cases h1 : c = '&'
  · subst h1; rfl
  · by_cases h2 : c = '<'
    · subst h2; rfl
    · by_cases h3 : c = '>'
      · subst h3; rfl
      · by_cases h4 : c = '"'
        · subst h4; rfl
        · simp [escapeHtml, replaceAll, escChar, h1, h2, h3, h4]

/-- The sequential four-pass escaper of the source coincides with the
single-pass character table: entities introduced by earlier passes are
never re-escaped by later ones. -/
theorem escapeHtml_eq_escapeSpec (s : Str) : escapeHtml s = escapeSpec s := by
  induction s with
  | nil => rfl
  | cons c cs ih =>
      have h : (c :: cs) = [c] ++ cs := rfl
      rw [h, escapeHtml_append, ih, escapeHtml_single]
      rfl

theorem special_cases {c : Char} (h : isSpecial c = true) :
    c = '&' ∨ c = '<' ∨ c = '>' ∨ c = '"' := by
  simp [isSpecial] at h
  tauto

theorem not_special_cases {c : Char} (h : isSpecial c = false) :
    c ≠ '&' ∧ c ≠ '<' ∧ c ≠ '>' ∧ c ≠ '"' := by
  simp [isSpecial] at h
  tauto

theorem escChar_eq_self_of_not_special {c : Char} (h : isSpecial c = false) :
    escChar c = [c] := by
  obtain ⟨h1, h2, h3, h4⟩ := not_special_cases h
  simp [escChar, h1, h2, h3, h4]

theorem lt_not_mem_escChar (c : Char) : '<' ∉ escChar c := by
  by_cases h : isSpecial c = true
  · rcases special_cases h with h | h | h | h <;> subst h <;> decide
  · rw [escChar_eq_self_of_not_special (by simpa using h)]
    obtain ⟨-, h2, -, -⟩ := not_special_cases (by simpa using h)
    simp
    exact fun hh => h2 hh.symm

/-- The escaped output never contains a literal `<`. -/
theorem lt_not_mem_escapeHtml (s : Str) : '<' ∉ escapeHtml s := by
  rw [escapeHtml_eq_escapeSpec]
  induction s with
  | nil => simp [escapeSpec]
  | cons c cs ih =>
      simp only [escapeSpec, List.mem_append]
      rintro (h | h)
      · exact lt_not_mem_escChar c h
      · exact ih h

theorem amp_mem_escChar_of_special {c : Char} (h : isSpecial c = true) :
    '&' ∈ escChar c := by
  rcases special_cases h with h | h | h | h <;> subst h <;> decide

/-- If the input has an HTML-significant character, the escaped output
contains an `&` (because every entity starts with one). -/
theorem amp_mem_escapeHtml {s : Str} (c : Char) (hc : c ∈ s)
    (hs : isSpecial c = true) : '&' ∈ escapeHtml s := by
  rw [escapeHtml_eq_escapeSpec]
  induction s with
  | nil => cases hc
  | cons d ds ih =>
      simp only [escapeSpec, List.mem_append]
      rcases List.mem_cons.mp hc with h | h
      · subst h; exact Or.inl (amp_mem_escChar_of_special hs)
      · exact Or.inr (ih h)

theorem one_le_length_escChar (c : Char) : 1 ≤ (escChar c).length := by
  by_cases h : isSpecial c = true
  · rcases special_cases h with h | h | h | h <;> subst h <;> decide
  · rw [escChar_eq_self_of_not_special (by simpa using h)]; simp

theorem length_le_length_escapeSpec (s : Str) :
    s.length ≤ (escapeSpec s).length := by
  induction s with
  | nil => simp [escapeSpec]
  | cons c cs ih =>
      have h1 := one_le_length_escChar c
      simp only [escapeSpec, List.length_append, List.length_cons]
      omega

/-- Escaping a string that contains `&` strictly grows it. -/
theorem length_lt_of_amp_mem {s : Str} (h : '&' ∈ s) :
    s.length < (escapeHtml s).length := by
  rw [escapeHtml_eq_escapeSpec]
  induction s with
  | nil => cases h
  | cons c cs ih =>
      simp only [escapeSpec, List.length_append, List.length_cons]
      have h1 := one_le_length_escChar c
      have hle := length_le_length_escapeSpec cs
      rcases List.mem_cons.mp h with hc | hc
      · have h5 : (escChar c).length = 5 := by rw [← hc]; decide
        omega
      · have := ih hc
        omega

/-! ## Theorems: sorting -/

theorem sortSections_perm (l : List SectionRecord) : (sortSections l).Perm l :=
  List.perm_insertionSort sectionLe l

theorem sortSections_sorted (l : List SectionRecord) :
    (sortSections l).Pairwise (fun a b => orderKey a ≤ orderKey b) :=
  List.sorted_insertionSort sectionLe l

/-- Stability, stated through filters: for any key `k`, the records
whose key is `k` appear in the sorted list exactly as they appeared in
the input. -/
theorem sortSections_stable (l : List SectionRecord) (k : Int) :
    (sortSections l).filter (fun r => orderKey r == k)
      = l.filter (fun r => orderKey r == k) := by
  have hsub : List.Sublist (l.filter (fun r => orderKey r == k)) (sortSections l) := by
    apply List.sublist_insertionSort
    · apply List.pairwise_of_forall_mem_list
      intro a ha b hb
      have ha' := (List.mem_filter.mp ha).2
      have hb' := (List.mem_filter.mp hb).2
      simp only [beq_iff_eq] at ha' hb'
      simp [sectionLe, ha', hb']
    · exact List.filter_sublist l
  have hsub2 : List.Sublist (l.filter (fun r => orderKey r == k))
      ((sortSections l).filter (fun r => orderKey r == k)) := by
    have := hsub.filter (fun r => orderKey r == k)
    simpa using this
  have hperm : ((sortSections l).filter (fun r => orderKey r == k)).Perm
      (l.filter (fun r => orderKey r == k)) :=
    (sortSections_perm l).filter _
  exact (hsub2.eq_of_length hperm.length_eq.symm).symm

/-! ## Theorems: adjacent pairs -/

theorem fst_mem_of_mem_pairs {p : Char × Char} :
    ∀ {s : Str}, p ∈ pairs s → p.1 ∈ s
  | [], h => by cases h
  | [_], h => by cases h
  | a :: b :: t, h => by
      rcases List.mem_cons.mp h with h | h
      · subst h; exact List.mem_cons_self _ _
      · exact List.mem_cons_of_mem a (fst_mem_of_mem_pairs h)

theorem pairs_subset_cons (c : Char) (s : Str) : pairs s ⊆ pairs (c :: s) := by
  cases s with
  | nil => simp [pairs]
  | cons b t =>
      intro p hp
      exact List.mem_cons_of_mem _ hp

theorem pairs_subset_append_right (x y : Str) : pairs y ⊆ pairs (x ++ y) := by
  induction x with
  | nil => simp
  | cons c t ih => exact fun p hp => pairs_subset_cons c (t ++ y) (ih hp)

theorem pairs_subset_append_left : ∀ (x y : Str), pairs x ⊆ pairs (x ++ y)
  | [], _ => by simp [pairs]
  | [_], _ => by simp [pairs]
  | a :: b :: t, y => by
      intro p hp
      rcases List.mem_cons.mp hp with h | h
      · subst h; exact List.mem_cons_self _ _
      · exact List.mem_cons_of_mem _ (pairs_subset_append_left (b :: t) y h)

/-- Adjacent pairs of an infix occur in the whole string. -/
theorem pairs_subset_of_occurrence {t s : Str} (h : List.IsInfix t s) :
    pairs t ⊆ pairs s := by
  obtain ⟨a, b, rfl⟩ := h
  intro p hp
  have h1 : p ∈ pairs (t ++ b) := pairs_subset_append_left t b hp
  have h2 : p ∈ pairs (a ++ (t ++ b)) := pairs_subset_append_right a (t ++ b) h1
  simpa [List.append_assoc] using h2

/-- A pair of a concatenation is a pair of a part or the boundary pair. -/
theorem mem_pairs_append {p : Char × Char} :
    ∀ {x y : Str}, p ∈ pairs (x ++ y) →
      p ∈ pairs x ∨ p ∈ pairs y ∨ (x.getLast? = some p.1 ∧ y.head? = some p.2)
  | [], y, h => by simp at h ⊢; tauto
  | [a], y, h => by
      cases y with
      | nil => simp [pairs] at h
      | cons c t =>
          rcases List.mem_cons.mp h with h | h
          · subst h; simp
          · exact Or.inr (Or.inl h)
  | a :: b :: x, y, h => by
      simp only [List.cons_append, pairs] at h
      rcases List.mem_cons.mp h with h | h
      · subst h
        exact Or.inl (List.mem_cons_self _ _)
      · have h' : p ∈ pairs ((b :: x) ++ y) := by simpa using h
        rcases mem_pairs_append h' with h1 | h1 | h1
        · exact Or.inl (pairs_subset_cons a (b :: x) h1)
        · exact Or.inr (Or.inl h1)
        · rw [List.getLast?_cons_cons]
          exact Or.inr (Or.inr h1)

theorem noPair_append {p : Char × Char} {x y : Str}
    (hx : p ∉ pairs x) (hy : p ∉ pairs y)
    (hb : x.getLast? ≠ some p.1 ∨ y.head? ≠ some p.2) :
    p ∉ pairs (x ++ y) := by
  intro h
  rcases mem_pairs_append h with h1 | h1 | h1
  · exact hx h1
  · exact hy h1
  · rcases hb with hb | hb
    · exact hb h1.1
    · exact hb h1.2

/-- A string with no adjacent `<`,`u` has no `<ul>` occurrence. -/
theorem not_ul_occurs {s : Str} (h : ('<', 'u') ∉ pairs s) :
    ¬ List.IsInfix (lit "<ul>") s := by
  intro hi
  exact h (pairs_subset_of_occurrence hi (by decide))

/-- A string that never contains `<` has no `<`-starting pair and
never ends in `<`. -/
theorem noPair_of_lt_not_mem {s : Str} (h : '<' ∉ s) (c : Char) :
    ('<', c) ∉ pairs s ∧ s.getLast? ≠ some '<' := by
  constructor
  · intro hp
    exact h (fst_mem_of_mem_pairs hp)
  · intro hl
    exact h (List.mem_of_getLast?_eq_some hl)

/-! ## Theorems: bullets -/

theorem filter_truthy_map (l : List (Option Str)) (w : Str → Str) :
    (l.filter truthyStr).map (fun b => w (b.getD []))
      = ((l.filterMap id).filter (fun s => !s.isEmpty)).map w := by
  induction l with
  | nil => rfl
  | cons o t ih =>
      cases o with
      | none => simpa [List.filter_cons, List.filterMap_cons, truthyStr] using ih
      | some s =>
          by_cases hs : s.isEmpty
          · simpa [List.filter_cons, List.filterMap_cons, truthyStr, hs] using ih
          · simpa [List.filter_cons, List.filterMap_cons, truthyStr, hs] using ih

/-- The rendered `<li>` items are exactly the non-empty bullet slots,
each escaped and wrapped, in slot order. -/
theorem bulletItems_eq (f : SectionFields) :
    bulletItems f
      = (nonEmptyBullets f).map (fun b => lit "<li>" ++ escapeHtml b ++ lit "</li>") := by
  simpa [bulletItems, nonEmptyBullets] using
    filter_truthy_map [f.Bullet1, f.Bullet2, f.Bullet3]
      (fun b => lit "<li>" ++ escapeHtml b ++ lit "</li>")

theorem bulletsJoined_eq (f : SectionFields) :
    bulletsJoined f
      = ((nonEmptyBullets f).map
          (fun b => lit "<li>" ++ escapeHtml b ++ lit "</li>")).flatten := by
  rw [bulletsJoined, bulletItems_eq]

theorem bulletsHtml_of_no_bullets {f : SectionFields}
    (h : nonEmptyBullets f = []) : bulletsHtml f = [] := by
  have hj : bulletsJoined f = [] := by simp [bulletsJoined_eq, h]
  simp [bulletsHtml, hj]

theorem bulletsHtml_of_bullets {f : SectionFields}
    (h : nonEmptyBullets f ≠ []) :
    bulletsHtml f = lit "<ul>" ++ bulletsJoined f ++ lit "</ul>" := by
  obtain ⟨x, xs, hx⟩ := List.exists_cons_of_ne_nil h
  have hj : bulletsJoined f = lit "<li>" ++ escapeHtml x ++ lit "</li>"
      ++ ((xs.map (fun b => lit "<li>" ++ escapeHtml b ++ lit "</li>")).flatten) := by
    simp [bulletsJoined_eq, hx]
  have hne : ¬ (bulletsJoined f).isEmpty := by
    rw [hj]
    simp [lit]
  simp [bulletsHtml, hne]

/-- When every bullet slot is empty or absent, the whole card has no
`<ul>` occurrence: the fixed template text has none, and the escaped
title and body cannot contribute a `<`. -/
theorem no_ul_in_renderCard {rec : SectionRecord}
    (h : nonEmptyBullets rec.fields = []) :
    ¬ List.IsInfix (lit "<ul>") (renderCard rec) := by
  apply not_ul_occurs
  have hb : bulletsHtml rec.fields = [] := bulletsHtml_of_no_bullets h
  have ht := noPair_of_lt_not_mem
    (lt_not_mem_escapeHtml (rec.fields.Title.getD [])) 'u'
  have hbody := noPair_of_lt_not_mem
    (lt_not_mem_escapeHtml (rec.fields.Body.getD [])) 'u'
  show ('<', 'u') ∉ pairs
    (lit "\n    <section " ++ sectionClassFrag rec.fields
      ++ lit ">\n      <h2>" ++ escapeHtml (rec.fields.Title.getD [])
      ++ lit "</h2>\n      <p>" ++ escapeHtml (rec.fields.Body.getD [])
      ++ lit "</p>\n      " ++ bulletsHtml rec.fields
      ++ lit "\n    </section>")
  rw [hb]
  simp only [List.append_assoc, List.append_nil, List.nil_append]
  apply noPair_append (by decide) ?_ (Or.inl (by decide))
  have hcf : ('<', 'u') ∉ pairs (sectionClassFrag rec.fields)
      ∧ (sectionClassFrag rec.fields).getLast? ≠ some '<' := by
    cases htr : truthyB rec.fields.Highlight with
    | false =>
        have : sectionClassFrag rec.fields = lit "class=\"card\"" := by
          simp only [sectionClassFrag, classAttr, htr, if_neg Bool.false_ne_true]
          decide
        rw [this]
        exact ⟨by decide, by decide⟩
    | true =>
        have : sectionClassFrag rec.fields = lit "class=\"card card highlight\"" := by
          simp only [sectionClassFrag, classAttr, htr, if_pos rfl]
          decide
        rw [this]
        exact ⟨by decide, by decide⟩
  apply noPair_append hcf.1 ?_ (Or.inl hcf.2)
  apply noPair_append (by decide) ?_ (Or.inl (by decide))
  apply noPair_append ht.1 ?_ (Or.inl ht.2)
  apply noPair_append (by decide) ?_ (Or.inl (by decide))
  apply noPair_append hbody.1 ?_ (Or.inl hbody.2)
  apply noPair_append (by decide) ?_ (Or.inl (by decide))
  decide

/-! ## Theorems: globals and assembly -/

theorem escapeHtmlJS_optToJS (o : Option Str) :
    escapeHtmlJS (optToJS o) = escapeHtml (o.getD []) := by
  cases o <;> rfl

theorem fieldOr_nil (o : Option Str) : fieldOr o [] = o.getD [] := by
  cases o with
  | none => rfl
  | some s => cases s <;> rfl

/-- The `||` chain of line 86-87 is the first-non-empty cascade:
escaped SEO title, then escaped hero title, then `"Simple Web"`. -/
theorem seoTitleOf_cascade (g : GlobalFields) :
    seoTitleOf g =
      (if escapeHtml (g.seoTitle.getD []) = []
       then (if escapeHtml (g.heroTitle.getD []) = []
             then lit "Simple Web" else escapeHtml (g.heroTitle.getD []))
       else escapeHtml (g.seoTitle.getD [])) := by
  have h1 : heroTitleOf g = escapeHtml (g.heroTitle.getD []) := by
    simp only [heroTitleOf, fieldOr_nil]
  simp only [seoTitleOf, escapeHtmlJS_optToJS, h1]
  by_cases hs : escapeHtml (g.seoTitle.getD []) = []
  · by_cases hh : escapeHtml (g.heroTitle.getD []) = []
    · simp [strOr, List.isEmpty_iff, hs, hh]
    · simp [strOr, List.isEmpty_iff, hs, hh]
  · simp [strOr, List.isEmpty_iff, hs]

/-- The `<title>` element occurs in the assembled document. -/
theorem titleFrag_infix_assembleHtml (g : GlobalFields) (cardsHtml : Str) :
    List.IsInfix (titleFrag g) (assembleHtml g cardsHtml) := by
  refine ⟨lit "<!DOCTYPE html>\n<html lang=\"en\">\n<head>\n  <meta charset=\"UTF-8\" />\n  <meta name=\"viewport\" content=\"width=device-width, initial-scale=1.0\" />\n  ",
    lit "\n  <meta name=\"description\" content=\""
      ++ seoDescriptionOf g
      ++ lit "\">\n  <link rel=\"stylesheet\" href=\"styles.css\" />\n</head>\n<body>\n  <header class=\"site-header\">\n    <div class=\"container\">\n      <h1>"
      ++ heroTitleOf g
      ++ lit "</h1>\n      <p class=\"subtitle\">"
      ++ heroSubtitleOf g
      ++ lit "</p>\n    </div>\n  </header>\n\n  <main class=\"container\">\n    "
      ++ cardsHtml
      ++ lit "\n  </main>\n\n  <footer class=\"site-footer\">\n    <div class=\"container\">\n      <p>"
      ++ footerTextOf g
      ++ lit "</p>\n    </div>\n  </footer>\n</body>\n</html>", ?_⟩
  simp [assembleHtml, List.append_assoc]

/-! ## Theorems: the fetch boundary -/

theorem status_infix_fetchErrMsg {α : Type} (t : Str) (r : Response α) :
    List.IsInfix (natStr r.status) (fetchErrMsg t r) :=
  ⟨lit "Failed to fetch " ++ t ++ lit ": ",
   lit " " ++ r.statusText ++ lit "\n" ++ r.bodyText,
   by simp [fetchErrMsg, List.append_assoc]⟩

theorem statusText_infix_fetchErrMsg {α : Type} (t : Str) (r : Response α) :
    List.IsInfix r.statusText (fetchErrMsg t r) :=
  ⟨lit "Failed to fetch " ++ t ++ lit ": " ++ natStr r.status ++ lit " ",
   lit "\n" ++ r.bodyText,
   by simp [fetchErrMsg, List.append_assoc]⟩

theorem bodyText_infix_fetchErrMsg {α : Type} (t : Str) (r : Response α) :
    List.IsInfix r.bodyText (fetchErrMsg t r) :=
  ⟨lit "Failed to fetch " ++ t ++ lit ": " ++ natStr r.status ++ lit " "
     ++ r.statusText ++ lit "\n", [],
   by simp [fetchErrMsg, List.append_assoc]⟩

/-! ## Claim theorems -/

/-- C1: `renderCards` emits exactly one `<section>` block per input
record (the blocks are the `renderCard` images of a permutation of the
input, so none is filtered out), in ascending order of the `Order`
field with an absent `Order` sorting as `0` (`orderKey`), ties keeping
their original input sequence (filter-stability for every key), and the
per-record fragments joined with a newline separator. -/
theorem renderCards_sorted_stable_joined (l : List SectionRecord) :
    (renderCards l).2 = List.intercalate (lit "\n") ((sortSections l).map renderCard)
    ∧ (sortSections l).Perm l
    ∧ ((sortSections l).map renderCard).length = l.length
    ∧ (sortSections l).Pairwise (fun a b => orderKey a ≤ orderKey b)
    ∧ ∀ k : Int, (sortSections l).filter (fun r => orderKey r == k)
        = l.filter (fun r => orderKey r == k) :=
  ⟨rfl, sortSections_perm l,
   by simp [(sortSections_perm l).length_eq],
   sortSections_sorted l, sortSections_stable l⟩

set_option maxRecDepth 8192 in
/-- C2: the four sequential replacements equal the single-pass
character table (`&` first, so entities from later replacements are
never double-escaped), no other character is altered, and a title
containing `<script>` renders inside its `<h2>` as `&lt;script&gt;`
and never as a literal `<script>` tag. -/
theorem escaper_single_pass_correct :
    (∀ s : Str, escapeHtml s = escapeSpec s)
    ∧ (∀ c : Char, isSpecial c = false → escChar c = [c])
    ∧ List.IsInfix (lit "<h2>&lt;script&gt;</h2>")
        (renderCard ⟨{ Title := some (lit "<script>") }⟩)
    ∧ ¬ List.IsInfix (lit "<script>")
        (renderCard ⟨{ Title := some (lit "<script>") }⟩) :=
  ⟨escapeHtml_eq_escapeSpec,
   fun _ h => escChar_eq_self_of_not_special h,
   by decide, by decide⟩

theorem escaper_single_pass_correct_witness : escChar 'x' = ['x'] :=
  escaper_single_pass_correct.2.1 'x' (by decide)

/-- C3 counterexample: a record whose `Highlight` field is truthy gets
the class attribute value `"card card highlight"` (the template's fixed
`card` plus the `" card highlight"` branch), not `"card highlight"` as
claimed. -/
theorem highlight_class_counterexample :
    classAttr { Highlight := some true } = lit "card card highlight"
    ∧ classAttr { Highlight := some true } ≠ lit "card highlight" := by
  decide

/-- C3 amended: the class attribute of the rendered `<section>` is
exactly `"card card highlight"` when `Highlight` is truthy and
`"card"` when it is absent or falsy. -/
theorem highlight_class_amended (f : SectionFields) :
    classAttr f
      = (if truthyB f.Highlight then lit "card card highlight" else lit "card")
    ∧ List.IsInfix (lit "class=\"" ++ classAttr f ++ lit "\"") (renderCard ⟨f⟩) := by
  constructor
  · cases h : truthyB f.Highlight
    · simp [classAttr, h]
    · simp only [classAttr, h, if_pos]
      decide
  · exact ⟨lit "\n    <section ",
      lit ">\n      <h2>" ++ escapeHtml (f.Title.getD [])
        ++ lit "</h2>\n      <p>" ++ escapeHtml (f.Body.getD [])
        ++ lit "</p>\n      " ++ bulletsHtml f
        ++ lit "\n    </section>",
      by simp [renderCard, sectionClassFrag, List.append_assoc]⟩

/-- C4 counterexample: on the JS value `null` the escaper returns the
literal text `"null"`, not the empty string — the default parameter
`value = ""` replaces only `undefined`. -/
theorem escaper_null_counterexample :
    escapeHtmlJS JSVal.null = lit "null" ∧ escapeHtmlJS JSVal.null ≠ [] := by
  decide

/-- C4 amended: on `undefined` the escaper returns the empty string
(never the text `"undefined"`), but on `null` it returns the literal
text `"null"`, because the default parameter fires only for
`undefined`. -/
theorem escaper_absent_amended :
    escapeHtmlJS JSVal.undef = [] ∧ escapeHtmlJS JSVal.null = lit "null" := by
  decide

/-- C5: the assembled document's `<title>` element carries `seoTitleOf`,
which is the first non-empty of: escaped SEO title, escaped hero title,
the fixed default `"Simple Web"`; an empty (not merely absent) SEO
title still triggers the fallback. -/
theorem document_title_cascade (g : GlobalFields) (cardsHtml : Str) :
    List.IsInfix (lit "<title>" ++ seoTitleOf g ++ lit "</title>")
        (assembleHtml g cardsHtml)
    ∧ seoTitleOf g =
        (if escapeHtml (g.seoTitle.getD []) = []
         then (if escapeHtml (g.heroTitle.getD []) = []
               then lit "Simple Web" else escapeHtml (g.heroTitle.getD []))
         else escapeHtml (g.seoTitle.getD []))
    ∧ (g.seoTitle = some [] → g.heroTitle = some (lit "Welcome") →
        seoTitleOf g = escapeHtml (lit "Welcome")) := by
  refine ⟨titleFrag_infix_assembleHtml g cardsHtml, seoTitleOf_cascade g, ?_⟩
  intro hs hh
  rw [seoTitleOf_cascade g, hs, hh]
  decide

theorem document_title_cascade_witness :
    seoTitleOf { seoTitle := some [], heroTitle := some (lit "Welcome") }
      = escapeHtml (lit "Welcome") :=
  (document_title_cascade { seoTitle := some [], heroTitle := some (lit "Welcome") } []).2.2
    rfl rfl

/-- C6: exactly the non-empty bullet slots, in fixed slot order, appear
as `<li>` items; when at least one is non-empty they are wrapped in a
single `<ul>`, and when all are empty or absent the card contains no
`<ul>` at all. -/
theorem bullets_rendered_exactly (rec : SectionRecord) :
    bulletItems rec.fields
      = (nonEmptyBullets rec.fields).map
          (fun b => lit "<li>" ++ escapeHtml b ++ lit "</li>")
    ∧ (nonEmptyBullets rec.fields ≠ [] →
        bulletsHtml rec.fields
          = lit "<ul>" ++ bulletsJoined rec.fields ++ lit "</ul>")
    ∧ (nonEmptyBullets rec.fields = [] →
        bulletsHtml rec.fields = []
        ∧ ¬ List.IsInfix (lit "<ul>") (renderCard rec)) :=
  ⟨bulletItems_eq rec.fields,
   fun h => bulletsHtml_of_bullets h,
   fun h => ⟨bulletsHtml_of_no_bullets h, no_ul_in_renderCard h⟩⟩

theorem bullets_rendered_exactly_witness :
    bulletsHtml { Bullet1 := some (lit "A"), Bullet2 := some [], Bullet3 := some (lit "B") }
      = lit "<ul>"
        ++ bulletsJoined { Bullet1 := some (lit "A"), Bullet2 := some [], Bullet3 := some (lit "B") }
        ++ lit "</ul>"
    ∧ ¬ List.IsInfix (lit "<ul>") (renderCard ⟨{}⟩) :=
  ⟨(bullets_rendered_exactly
      ⟨{ Bullet1 := some (lit "A"), Bullet2 := some [], Bullet3 := some (lit "B") }⟩).2.1
      (by decide),
   ((bullets_rendered_exactly ⟨{}⟩).2.2 rfl).2⟩

/-- C7: on any string containing `&`, `<`, `>` or `"`, escaping twice
differs from escaping once (the escaped form contains an `&`, which a
second pass grows further). -/
theorem escaper_not_idempotent (s : Str) (h : ∃ c ∈ s, isSpecial c = true) :
    escapeHtml (escapeHtml s) ≠ escapeHtml s := by
  obtain ⟨c, hc, hs⟩ := h
  have hamp : '&' ∈ escapeHtml s := amp_mem_escapeHtml c hc hs
  have hlt := length_lt_of_amp_mem hamp
  intro he
  rw [he] at hlt
  exact lt_irrefl _ hlt

theorem escaper_not_idempotent_witness :
    escapeHtml (escapeHtml (lit "<b>")) ≠ escapeHtml (lit "<b>") :=
  escaper_not_idempotent (lit "<b>") ⟨'<', by decide, by decide⟩

/-- C8 counterexample: `renderCards` sorts its input array in place, so
after the call an unsorted input sequence is no longer in its original
order. -/
theorem renderCards_mutation_counterexample :
    (renderCards [⟨{ Order := some 3 }⟩, ⟨{ Order := some 1 }⟩]).1
      ≠ [⟨{ Order := some 3 }⟩, ⟨{ Order := some 1 }⟩] := by
  decide

/-- C8 amended: `renderCards` is a deterministic function of its input
but sorts the caller's array in place as a side effect: after the call
the array holds exactly the same records (a permutation, record
contents untouched) in stable `Order`-sorted sequence, and the returned
HTML is computed from that sorted array. -/
theorem renderCards_sorts_in_place (l : List SectionRecord) :
    (renderCards l).1 = sortSections l
    ∧ ((renderCards l).1).Perm l
    ∧ (renderCards l).2
        = List.intercalate (lit "\n") (((renderCards l).1).map renderCard) :=
  ⟨rfl, sortSections_perm l, rfl⟩

/-- C9: a non-success status on either table's fetch makes the run
abort with an error whose message contains the status code, status
text and response body; that table is fetched exactly once (no retry)
and no output is produced. -/
theorem fetch_failure_aborts (respG : Response GlobalRecord)
    (respS : Response SectionRecord) :
    (respG.ok = false →
      (mainModel respG respS).2 = .error (fetchErrMsg (lit "Globals") respG)
      ∧ List.IsInfix (natStr respG.status) (fetchErrMsg (lit "Globals") respG)
      ∧ List.IsInfix respG.statusText (fetchErrMsg (lit "Globals") respG)
      ∧ List.IsInfix respG.bodyText (fetchErrMsg (lit "Globals") respG)
      ∧ (mainModel respG respS).1.count (lit "Globals") = 1
      ∧ ∀ html : Str, (mainModel respG respS).2 ≠ .ok html)
    ∧ (respG.ok = true → respS.ok = false →
      (mainModel respG respS).2 = .error (fetchErrMsg (lit "Sections") respS)
      ∧ List.IsInfix (natStr respS.status) (fetchErrMsg (lit "Sections") respS)
      ∧ List.IsInfix respS.statusText (fetchErrMsg (lit "Sections") respS)
      ∧ List.IsInfix respS.bodyText (fetchErrMsg (lit "Sections") respS)
      ∧ (mainModel respG respS).1.count (lit "Sections") = 1
      ∧ ∀ html : Str, (mainModel respG respS).2 ≠ .ok html) := by
  constructor
  · intro hg
    have hm : mainModel respG respS
        = ([lit "Globals"], .error (fetchErrMsg (lit "Globals") respG)) := by
      simp [mainModel, fetchTable, hg]
    refine ⟨by rw [hm], status_infix_fetchErrMsg _ _,
      statusText_infix_fetchErrMsg _ _, bodyText_infix_fetchErrMsg _ _,
      by rw [hm]; simp, ?_⟩
    intro html
    rw [hm]
    simp
  · intro hg hs
    have hm : mainModel respG respS
        = ([lit "Globals", lit "Sections"],
           .error (fetchErrMsg (lit "Sections") respS)) := by
      simp [mainModel, fetchTable, hg, hs]
    refine ⟨by rw [hm], status_infix_fetchErrMsg _ _,
      statusText_infix_fetchErrMsg _ _, bodyText_infix_fetchErrMsg _ _,
      by rw [hm]; simp; decide, ?_⟩
    intro html
    rw [hm]
    simp

theorem fetch_failure_aborts_witness :
    (mainModel (⟨false, 404, lit "Not Found", lit "NOT_FOUND", []⟩ : Response GlobalRecord)
        (⟨true, 200, lit "OK", [], []⟩ : Response SectionRecord)).2
      = .error (fetchErrMsg (lit "Globals")
          (⟨false, 404, lit "Not Found", lit "NOT_FOUND", []⟩ : Response GlobalRecord))
    ∧ (mainModel (⟨true, 200, lit "OK", [], []⟩ : Response GlobalRecord)
        (⟨false, 500, lit "Server Error", lit "boom", []⟩ : Response SectionRecord)).2
      = .error (fetchErrMsg (lit "Sections")
          (⟨false, 500, lit "Server Error", lit "boom", []⟩ : Response SectionRecord)) :=
  ⟨((fetch_failure_aborts _ _).1 rfl).1, ((fetch_failure_aborts _ _).2 rfl rfl).1⟩

/-- C10: when the Globals table returns no records the run still
succeeds — the globals mapping degrades to the empty mapping, the hero
title, hero subtitle, footer text and SEO description all render as
empty strings, and the document `<title>` is the fixed default
`Simple Web`. -/
theorem empty_globals_degrades (respG : Response GlobalRecord)
    (respS : Response SectionRecord)
    (hg : respG.ok = true) (hempty : respG.records = []) (hs : respS.ok = true) :
    (mainModel respG respS).2
      = .ok (assembleHtml {} ((renderCards respS.records).2))
    ∧ heroTitleOf {} = [] ∧ heroSubtitleOf {} = [] ∧ footerTextOf {} = []
    ∧ seoDescriptionOf {} = []
    ∧ seoTitleOf {} = lit "Simple Web"
    ∧ List.IsInfix (lit "<title>Simple Web</title>")
        (assembleHtml {} ((renderCards respS.records).2)) := by
  refine ⟨?_, rfl, rfl, rfl, rfl, by decide, ?_⟩
  · simp [mainModel, fetchTable, hg, hs, hempty, globalsOf]
  · have h := titleFrag_infix_assembleHtml {} ((renderCards respS.records).2)
    have ht : titleFrag {} = lit "<title>Simple Web</title>" := by decide
    rwa [ht] at h

theorem empty_globals_degrades_witness :
    seoTitleOf {} = lit "Simple Web"
    ∧ (mainModel (⟨true, 200, lit "OK", [], []⟩ : Response GlobalRecord)
        (⟨true, 200, lit "OK", [], []⟩ : Response SectionRecord)).2
      = .ok (assembleHtml {} ((renderCards ([] : List SectionRecord)).2)) :=
  ⟨(empty_globals_degrades ⟨true, 200, lit "OK", [], []⟩ ⟨true, 200, lit "OK", [], []⟩
      rfl rfl rfl).2.2.2.2.2.1,
   (empty_globals_degrades ⟨true, 200, lit "OK", [], []⟩ ⟨true, 200, lit "OK", [], []⟩
      rfl rfl rfl).1⟩
